import Mathlib

/-!
# Particle Field Animator — verified model

Shallow embedding of the animated-background component of the website
(`src/lib/components/Background.svelte`).  The component keeps a fixed pool of
particles in a flat `Float32Array` of 8 interleaved fields per particle
(`x, y, vx, vy, life, ttl, radius, hue`), advances them once per animation
frame, reinitializes a particle in place when it expires or leaves the padded
canvas bounds, and strokes a line between every pair of particles closer than
`connectionDistance`.

Numbers are modelled as rationals.  The opaque browser math routines
(`Math.PI`, `Math.cos`, `Math.sin`, `Math.sqrt`) are abstracted as a record of
rational functions (`JSMath`); no claim below depends on their actual values,
only — in one place — on `Math.sqrt` being nonnegative on nonnegative inputs,
which is stated as an explicit contract hypothesis.  The successive results of
`Math.random()` are passed in as an explicit stream `rnd : ℕ → ℚ` together
with the index of the next unconsumed draw, consumed in source order.

A small fragment of ECMAScript value semantics (`JSVal`, `jsAdd`, `jsMul`,
`jsLt`) is embedded separately to settle the claim about string-valued
configuration options: JS `+` concatenates when either operand is a string,
while `*` and `<` coerce strings to numbers.
-/

namespace Background

/-- A JavaScript value as it can appear among the component's numeric props:
a finite number (modelled as a rational), the floating-point `NaN`, or a
string.  The component is only ever handed numbers or strings here. -/
inductive JSVal where
  | num : ℚ → JSVal
  | nan : JSVal
  | str : String → JSVal
  deriving DecidableEq

/-- Pads a digit string on the left with zeros to six characters. -/
def padSixDigits (s : String) : String :=
  String.mk (List.replicate (6 - s.length) '0') ++ s

/-- Removes trailing zero characters. -/
def dropTailZeros (s : String) : String :=
  String.mk ((s.data.reverse.dropWhile (fun c => c == '0')).reverse)

/-- ECMAScript number-to-string conversion, on finite decimals with at most six
fractional digits (every value this development evaluates it on).  JS prints
the shortest round-tripping decimal, which coincides with fixed-notation
printing with trailing zeros removed for such values. -/
def qToString (q : ℚ) : String :=
  let sign := (if q < 0 then ("-") else (""))
  let a := |q|
  let ip := (⌊a⌋).toNat
  let fd := (⌊(a - (ip : ℚ)) * 1000000⌋).toNat
  if fd = 0 then sign ++ toString ip
  else sign ++ toString ip ++ ("." : String) ++ dropTailZeros (padSixDigits (toString fd))

/-- Numeric value of a list of decimal digit characters. -/
def digitsVal (l : List Char) : ℕ :=
  l.foldl (fun acc c => acc * 10 + (c.toNat - 48)) 0

/-- The white-space characters JS `ToNumber` trims. -/
def isWs (c : Char) : Bool :=
  c == ' ' || c == '\t' || c == '\n' || c == '\r'

/-- Trims leading and trailing white space. -/
def trimWs (l : List Char) : List Char :=
  ((l.dropWhile isWs).reverse.dropWhile isWs).reverse

/-- Splits at the first `'.'`: the characters before it, and — when a dot is
present — those after it. -/
def splitDot : List Char → List Char × Option (List Char)
  | [] => ([], none)
  | c :: r =>
    if c == '.' then ([], some r)
    else
      let p := splitDot r
      (c :: p.1, p.2)

/-- ECMAScript string-to-number conversion on the decimal fragment
(optional sign, integer digits, optional fractional digits, at most one dot;
surrounding white space trimmed; the empty string is `0`; anything else —
including a second dot — is `NaN`, i.e. `none`).  Hexadecimal, exponent and
infinity forms, which no string in this development has, are not modelled. -/
def strToNumQ (s : String) : Option ℚ :=
  match trimWs s.data with
  | [] => some 0
  | l =>
    let sg : ℚ := if l.headD ' ' == '-' then -1 else 1
    let body := if l.headD ' ' == '-' || l.headD ' ' == '+' then l.tail else l
    let ab := splitDot body
    match ab.2 with
    | none =>
      if ab.1 ≠ [] ∧ ab.1.all Char.isDigit then some (sg * digitsVal ab.1) else none
    | some frac =>
      if (ab.1 ++ frac) ≠ [] ∧ ab.1.all Char.isDigit ∧ frac.all Char.isDigit then
        some (sg * ((digitsVal ab.1 : ℚ) + (digitsVal frac : ℚ) / (10 ^ frac.length : ℚ)))
      else none

/-- ECMAScript `ToNumber` on the modelled values. -/
def jsToNum : JSVal → JSVal
  | JSVal.num q => JSVal.num q
  | JSVal.nan => JSVal.nan
  | JSVal.str s =>
    match strToNumQ s with
    | some q => JSVal.num q
    | none => JSVal.nan

/-- ECMAScript `ToString` on the modelled values. -/
def jsValToString : JSVal → String
  | JSVal.num q => qToString q
  | JSVal.nan => ("NaN")
  | JSVal.str s => s

/-- Is the value a string? -/
def isStr : JSVal → Bool
  | JSVal.str _ => true
  | _ => false

/-- ECMAScript `+` on the modelled values: string concatenation when either
operand is a string, numeric addition otherwise (`NaN` propagates). -/
def jsAdd (a b : JSVal) : JSVal :=
  if isStr a || isStr b then JSVal.str (jsValToString a ++ jsValToString b)
  else
    match jsToNum a, jsToNum b with
    | JSVal.num x, JSVal.num y => JSVal.num (x + y)
    | _, _ => JSVal.nan

/-- ECMAScript `*` on the modelled values: both operands are coerced with
`ToNumber`; `NaN` propagates. -/
def jsMul (a b : JSVal) : JSVal :=
  match jsToNum a, jsToNum b with
  | JSVal.num x, JSVal.num y => JSVal.num (x * y)
  | _, _ => JSVal.nan

/-- ECMAScript `<` on the modelled values: numeric comparison after `ToNumber`
(a comparison involving `NaN` is false). -/
def jsLt (a b : JSVal) : Bool :=
  match jsToNum a, jsToNum b with
  | JSVal.num x, JSVal.num y => decide (x < y)
  | _, _ => false

/-- The props that `Background.svelte` passes through `Number(...)` right after
destructuring (lines 24–32).  All other props are used as received. -/
def coercedAtConstruction : List String :=
  ["circleCount", "blurAmount", "initialDelay", "baseTTL", "rangeTTL",
   "burstSpeedMultiplier", "burstDuration", "burstBaseRadius", "burstRangeRadius"]

/-- Line 74, `speed = baseSpeed + rand(rangeSpeed)`, with `rand n = n *
Math.random()` and `r` the value drawn by `Math.random()`, evaluated in JS
value semantics so that string-valued props flow through unconverted. -/
def speedExprJS (baseSpeed rangeSpeed : JSVal) (r : ℚ) : JSVal :=
  jsAdd baseSpeed (jsMul rangeSpeed (JSVal.num r))

/-- Line 84, `radius = (baseRadius + rand(rangeRadius)) * 0.2`, in JS value
semantics (steady-state branch). -/
def radiusExprJS (baseRadius rangeRadius : JSVal) (r : ℚ) : JSVal :=
  jsMul (jsAdd baseRadius (jsMul rangeRadius (JSVal.num r))) (JSVal.num 0.2)

/-- JavaScript remainder `x % y` for `y ≠ 0`: `x - y * trunc (x / y)`, the
truncation being toward zero.  (JS maps `y = 0` to `NaN`; every use below has
`y > 0`.) -/
def jsMod (x y : ℚ) : ℚ :=
  if 0 ≤ x / y then x - y * (⌊x / y⌋ : ℚ) else x - y * (⌈x / y⌉ : ℚ)

/-- `fadeInOut` from `Background.svelte` lines 54–59:
`hm = 0.5*m; rt = t % m; f = |((rt + hm) % m) - hm| / hm; f*f*(3 - 2*f)`.
It is a plain function of its two arguments, so determinism ("the same
`(age, ttl)` pair always yields the same value") holds by construction. -/
def fadeInOut (t m : ℚ) : ℚ :=
  let hm := 0.5 * m
  let rt := jsMod t m
  let f := |jsMod (rt + hm) m - hm| / hm
  f * f * (3 - 2 * f)

/-- The smoothstep polynomial `u*u*(3 - 2*u) = 3u² - 2u³`. -/
def smoothstep (u : ℚ) : ℚ := u * u * (3 - 2 * u)

/-- Following the spec's words: the normalized triangular phase position of
`t` in `[0, m]` — it rises linearly from 0 at `t = 0` to 1 at `t = m/2` and
falls back to 0 at `t = m`.  Used to compare `fadeInOut` with the spec's
`f(t) = 3u² - 2u³` form. -/
def specTriPhase (t m : ℚ) : ℚ := 1 - |2 * t / m - 1|

/-- The opaque browser math library: `Math.PI` and the three routines the
component calls.  Rational-valued stand-ins; the single property of it any
theorem needs (`Math.sqrt` is nonnegative on nonnegative inputs) is taken as
an explicit hypothesis where used. -/
structure JSMath where
  PI : ℚ
  cos : ℚ → ℚ
  sin : ℚ → ℚ
  sqrt : ℚ → ℚ

/-- One particle: the 8 interleaved `circleProps` slots
`[x, y, vx, vy, life, ttl, radius, hue]`. -/
structure Particle where
  x : ℚ
  y : ℚ
  vx : ℚ
  vy : ℚ
  life : ℚ
  ttl : ℚ
  radius : ℚ
  hue : ℚ

/-- The component's numeric configuration after the `Number(...)` coercions,
restricted to the options the physics uses.  (`circleCount` is passed
separately where needed; `blurAmount`, `initialDelay` and `burstDuration`
only affect compositing and timers, not particle state.) -/
structure Config where
  baseSpeed : ℚ
  rangeSpeed : ℚ
  baseRadius : ℚ
  rangeRadius : ℚ
  baseTTL : ℚ
  rangeTTL : ℚ
  centerBias : ℚ
  burstSpeedMultiplier : ℚ
  burstBaseRadius : ℚ
  burstRangeRadius : ℚ

/-- The drawing surface dimensions (`canvasA.width`, `canvasA.height`). -/
structure Canvas where
  width : ℚ
  height : ℚ

/-- Tail of `initCircle` (lines 72–89) once the spawn position `(x, y)` is
fixed: draws, in source order, `n` (hue jitter), the angle `t = rand(TAU)`,
`speed = baseSpeed + rand(rangeSpeed)`, `ttl = baseTTL + rand(rangeTTL)` and
the radius (burst or steady-state), with `life = 0`, `rangeHue = 10`, and
returns the particle together with the next unconsumed random index. -/
def initCircleAt (M : JSMath) (cfg : Config) (isBurst : Bool) (baseHue : ℚ)
    (rnd : ℕ → ℚ) (x y : ℚ) (k : ℕ) : Particle × ℕ :=
  (⟨x, y,
    (cfg.baseSpeed + cfg.rangeSpeed * rnd (k + 2)) * M.cos (M.PI * 2 * rnd (k + 1)),
    (cfg.baseSpeed + cfg.rangeSpeed * rnd (k + 2)) * M.sin (M.PI * 2 * rnd (k + 1)),
    0,
    cfg.baseTTL + cfg.rangeTTL * rnd (k + 3),
    (if isBurst then (cfg.burstBaseRadius + cfg.burstRangeRadius * rnd (k + 4)) * 0.2
     else (cfg.baseRadius + cfg.rangeRadius * rnd (k + 4)) * 0.2),
    baseHue + rnd k * 10⟩,
   k + 5)

/-- `initCircle` (lines 61–90): with probability `centerBias` the spawn
position is center-biased with triangular jitter (consuming four extra draws),
otherwise uniform `rand(width), rand(height)` (two extra draws); then the
shared tail `initCircleAt`. -/
def initCircle (M : JSMath) (cfg : Config) (cv : Canvas) (isBurst : Bool)
    (baseHue : ℚ) (rnd : ℕ → ℚ) (k : ℕ) : Particle × ℕ :=
  if rnd k < cfg.centerBias then
    initCircleAt M cfg isBurst baseHue rnd
      (cv.width * (0.5 + (rnd (k + 1) + rnd (k + 2) - 1) * 0.3))
      (cv.height * (0.5 + (rnd (k + 3) + rnd (k + 4) - 1) * 0.3))
      (k + 5)
  else
    initCircleAt M cfg isBurst baseHue rnd
      (cv.width * rnd (k + 1)) (cv.height * rnd (k + 2)) (k + 3)

/-- `checkBounds` (lines 102–107): out of bounds iff the position exceeds the
visible rectangle by strictly more than `padding = radius * 2` on some side. -/
def checkBounds (cv : Canvas) (x y radius : ℚ) : Bool :=
  decide (x < -(radius * 2) ∨ x > cv.width + radius * 2 ∨
          y < -(radius * 2) ∨ y > cv.height + radius * 2)

/-- Lines 140–144: the frame's life increment — `burstSpeedMultiplier` during
the burst phase, `1` otherwise. -/
def agedLife (cfg : Config) (isBurst : Bool) (life : ℚ) : ℚ :=
  if isBurst then life + cfg.burstSpeedMultiplier else life + 1

/-- Lines 146–149: the radius grows by 5% on a frame whose (already
incremented) life is below 50, otherwise stays. -/
def grownRadius (life radius : ℚ) : ℚ :=
  if life < 50 then radius * 1.05 else radius

/-- Result of one `updateCircle` call on one particle: the particle's new
state, whether it was reinitialized in place, and the next unconsumed random
index. -/
structure UpdateResult where
  particle : Particle
  reinit : Bool
  next : ℕ

/-- `updateCircle` (lines 109–158), minus the pure drawing calls: increment
`life`, grow `radius` while young, advance the position by the velocity, and —
testing the *pre-advance* position `(x, y)` against `checkBounds` with the
grown radius — reinitialize the particle in place via `initCircle` when it is
out of bounds or its life exceeds its ttl.  `initCircle` overwrites all eight
slots, so a reinitialized particle's state is exactly `initCircle`'s output. -/
def updateCircle (M : JSMath) (cfg : Config) (cv : Canvas) (isBurst : Bool)
    (baseHue : ℚ) (rnd : ℕ → ℚ) (k : ℕ) (p : Particle) : UpdateResult :=
  let life := agedLife cfg isBurst p.life
  let radius := grownRadius life p.radius
  let dead := checkBounds cv p.x p.y radius || decide (life > p.ttl)
  let fresh := initCircle M cfg cv isBurst baseHue rnd k
  ⟨(if dead then fresh.1
    else ⟨p.x + p.vx, p.y + p.vy, p.vx, p.vy, life, p.ttl, radius, p.hue⟩),
   dead,
   (if dead then fresh.2 else k)⟩

/-- The per-frame loop body of `updateCircles` (lines 191–193) over the pool,
threading the random index and counting in-place reinitializations. -/
def updateCircles (M : JSMath) (cfg : Config) (cv : Canvas) (isBurst : Bool)
    (baseHue : ℚ) (rnd : ℕ → ℚ) : List Particle → ℕ → List Particle × ℕ × ℕ
  | [], k => ([], k, 0)
  | p :: ps, k =>
    let u := updateCircle M cfg cv isBurst baseHue rnd k p
    let rest := updateCircles M cfg cv isBurst baseHue rnd ps u.next
    (u.particle :: rest.1, rest.2.1, rest.2.2 + (if u.reinit then 1 else 0))

/-- Helper for `initCircles`: builds `n` particles starting at particle index
`j`, staggering each fresh particle's life to `j * (baseTTL / circleCount)`
(line 98: `circleProps[i + 4] = (i / circlePropCount) * (baseTTL /
circleCount)`).  `initCircles` runs at mount, when `isBurst` is `true` and
`baseHue = 220`. -/
def initCirclesGo (M : JSMath) (cfg : Config) (cv : Canvas) (rnd : ℕ → ℚ)
    (stagger : ℚ) : ℕ → ℕ → ℕ → List Particle × ℕ
  | 0, _, k => ([], k)
  | n + 1, j, k =>
    let pk := initCircle M cfg cv true 220 rnd k
    let rest := initCirclesGo M cfg cv rnd stagger n (j + 1) pk.2
    (⟨pk.1.x, pk.1.y, pk.1.vx, pk.1.vy, (j : ℚ) * stagger, pk.1.ttl, pk.1.radius, pk.1.hue⟩
       :: rest.1,
     rest.2)

/-- `initCircles` (lines 92–100): builds the pool of exactly `circleCount`
particles. -/
def initCircles (M : JSMath) (cfg : Config) (cv : Canvas) (rnd : ℕ → ℚ)
    (circleCount : ℕ) (k : ℕ) : List Particle × ℕ :=
  initCirclesGo M cfg cv rnd (cfg.baseTTL / (circleCount : ℚ)) circleCount 0 k

/-- `circlePropCount` (line 34). -/
def circlePropCount : ℤ := 8

/-- `circlePropsLength` (line 35): the backing `Float32Array` is allocated
with exactly `circleCount * circlePropCount` slots and never resized. -/
def circlePropsLength (circleCount : ℤ) : ℤ := circleCount * circlePropCount

/-- The animator state a frame callback touches: the pool, the drifting
`baseHue`, the next unconsumed random index, and (instrumentation) how many
in-place reinitializations have happened so far. -/
structure FrameState where
  pool : List Particle
  baseHue : ℚ
  next : ℕ
  reinits : ℕ

/-- One animation frame (`updateCircles`, lines 188–196): drift `baseHue` by
0.1, then update every particle in order. -/
def stepFrame (M : JSMath) (cfg : Config) (cv : Canvas) (isBurst : Bool)
    (rnd : ℕ → ℚ) (s : FrameState) : FrameState :=
  let bh := s.baseHue + 0.1
  let r := updateCircles M cfg cv isBurst bh rnd s.pool s.next
  ⟨r.1, bh, r.2.1, s.reinits + r.2.2⟩

/-- Iterates `stepFrame`. -/
def runFrames (M : JSMath) (cfg : Config) (cv : Canvas) (isBurst : Bool)
    (rnd : ℕ → ℚ) : ℕ → FrameState → FrameState
  | 0, s => s
  | n + 1, s => runFrames M cfg cv isBurst rnd n (stepFrame M cfg cv isBurst rnd s)

/-- Euclidean distance of `drawConnections` (lines 171–173):
`Math.sqrt (dx*dx + dy*dy)`. -/
def distanceJS (M : JSMath) (x1 y1 x2 y2 : ℚ) : ℚ :=
  M.sqrt ((x2 - x1) * (x2 - x1) + (y2 - y1) * (y2 - y1))

/-- Line 175: a connecting line is drawn iff the distance is strictly below
`connectionDistance`. -/
def connectionDrawn (M : JSMath) (cd x1 y1 x2 y2 : ℚ) : Bool :=
  decide (distanceJS M x1 y1 x2 y2 < cd)

/-- Line 176: the stroke opacity `(1 - distance / connectionDistance) * 0.15`. -/
def connectionOpacity (M : JSMath) (cd x1 y1 x2 y2 : ℚ) : ℚ :=
  (1 - distanceJS M x1 y1 x2 y2 / cd) * 0.15

/-- `drawConnections` (lines 160–186): for every unordered pair of particles
(the loops run over `i` and `j > i`), emit a segment with its opacity when the
pair is close enough.  Returns the emitted `(endpoint, endpoint, opacity)`
triples in draw order. -/
def drawConnections (M : JSMath) (cd : ℚ) :
    List (ℚ × ℚ) → List ((ℚ × ℚ) × (ℚ × ℚ) × ℚ)
  | [] => []
  | p :: ps =>
    ((ps.filter (fun q => connectionDrawn M cd p.1 p.2 q.1 q.2)).map
      (fun q => (p, q, connectionOpacity M cd p.1 p.2 q.1 q.2)))
      ++ drawConnections M cd ps

/-- Concrete stand-in for the browser math library, used by the concrete
scenarios; its `sqrt` (the identity) satisfies the nonnegativity contract. -/
def mathW : JSMath := ⟨157/50, fun _ => 1, fun _ => 1, fun q => q⟩

/-- Concrete random stream: every `Math.random()` call returns `1/2`. -/
def rndHalf : ℕ → ℚ := fun _ => 1/2

/-- The deterministic-expiry scenario's configuration: `baseSpeed = 0`,
`rangeSpeed = 0`, `baseTTL = 10`, `rangeTTL = 0`, every other option at its
source default (lines 5–22). -/
def cfgExpiry : Config := ⟨0, 0, 40, 60, 10, 0, 0.15, 1, 50, 60⟩

/-- A 100 × 100 canvas. -/
def cvW : Canvas := ⟨100, 100⟩

/-- The expiry scenario's initial state: the pool built by `initCircles` with
`circleCount = 1` at mount (burst phase still on, `baseHue = 220`). -/
def expiryStart : FrameState :=
  ⟨(initCircles mathW cfgExpiry cvW rndHalf 1 0).1, 220,
   (initCircles mathW cfgExpiry cvW rndHalf 1 0).2, 0⟩

/-- A configuration whose `rangeTTL`, `rangeRadius` and `burstRangeRadius` are
positive, for concrete witnesses. -/
def cfgLife : Config := ⟨0, 0, 40, 60, 10, 1, 0.15, 1, 50, 60⟩

/-- A particle at rest at the canvas center. -/
def pRest : Particle := ⟨50, 50, 0, 0, 0, 10, 8, 220⟩

/-- A particle just inside the padded bounds that crosses far beyond them in a
single frame. -/
def pExit : Particle := ⟨90, 50, 1000, 0, 0, 10, 1, 0⟩

/-- Configuration for the radius-law counterexample: `baseRadius = 40`,
`rangeRadius = 1` (steady-state radius necessarily in `[8, 8.2)`), but
`burstBaseRadius = 50` with `burstRangeRadius = 0` (burst radius exactly 10). -/
def cfgBurstCE : Config := ⟨1/50, 3/100, 40, 1, 700, 1000, 0.15, 1, 50, 0⟩

/-- Conclusion of the fade law at ttl `m`: `fadeInOut` vanishes at age 0 and
at age `m`, attains 1 at the midpoint, is strictly smaller at every other age
in `(0, m)` (so the midpoint is the unique interior maximum), and on `[0, m]`
equals the spec's smoothstep `3u² − 2u³` of the normalized triangular phase. -/
def FadeLawConcl (m : ℚ) : Prop :=
  fadeInOut 0 m = 0 ∧ fadeInOut m m = 0 ∧ fadeInOut (m / 2) m = 1
  ∧ (∀ t, 0 < t → t < m → t ≠ m / 2 → fadeInOut t m < fadeInOut (m / 2) m)
  ∧ (∀ t, 0 ≤ t → t ≤ m →
      fadeInOut t m = 3 * specTriPhase t m ^ 2 - 2 * specTriPhase t m ^ 3)

/-- Conclusion of the bounds-tolerance claim at a position `(x, y)` lying
within `2 · radius` of the visible rectangle (tolerance inclusive):
`checkBounds` does not flag it; in general `checkBounds` flags a position iff
one of the four strict comparisons holds; and a particle whose pre-advance
position and frame radius are such an in-tolerance pair is reinitialized this
frame only for ttl expiry, never for bounds. -/
def BoundsToleranceConcl (cv : Canvas) (x y radius : ℚ) : Prop :=
  checkBounds cv x y radius = false
  ∧ (∀ xq yq r, checkBounds cv xq yq r = true ↔
      (xq < -(r * 2) ∨ xq > cv.width + r * 2 ∨ yq < -(r * 2) ∨ yq > cv.height + r * 2))
  ∧ (∀ (M : JSMath) (cfg : Config) (b : Bool) (bh : ℚ) (rnd : ℕ → ℚ) (k : ℕ)
      (p : Particle), p.x = x → p.y = y →
      grownRadius (agedLife cfg b p.life) p.radius = radius →
      ((updateCircle M cfg cv b bh rnd k p).reinit = true ↔ agedLife cfg b p.life > p.ttl))

/-- Conclusion of the bounded-lifetime claim: a surviving particle's life
strictly increased this frame; a reinitialized particle restarts at life 0
with a ttl in `[baseTTL, baseTTL + rangeTTL)`; and `initCircle` itself always
produces life 0 and a ttl in that half-open interval. -/
def LifetimeConcl (M : JSMath) (cfg : Config) (cv : Canvas) (b : Bool) (bh : ℚ)
    (rnd : ℕ → ℚ) (k : ℕ) (p : Particle) : Prop :=
  ((updateCircle M cfg cv b bh rnd k p).reinit = false →
    p.life < (updateCircle M cfg cv b bh rnd k p).particle.life)
  ∧ ((updateCircle M cfg cv b bh rnd k p).reinit = true →
      (updateCircle M cfg cv b bh rnd k p).particle.life = 0
      ∧ cfg.baseTTL ≤ (updateCircle M cfg cv b bh rnd k p).particle.ttl
      ∧ (updateCircle M cfg cv b bh rnd k p).particle.ttl < cfg.baseTTL + cfg.rangeTTL)
  ∧ (initCircle M cfg cv b bh rnd k).1.life = 0
  ∧ cfg.baseTTL ≤ (initCircle M cfg cv b bh rnd k).1.ttl
  ∧ (initCircle M cfg cv b bh rnd k).1.ttl < cfg.baseTTL + cfg.rangeTTL

/-- Conclusion of the (amended) radius law: a steady-state (re)initialization
draws the radius from `[baseRadius·0.2, (baseRadius + rangeRadius)·0.2)`, a
burst-phase one from the corresponding burst interval, and a surviving
particle's radius is multiplied by 1.05 exactly on the frames whose
incremented life is below 50. -/
def RadiusLawConcl (M : JSMath) (cfg : Config) (cv : Canvas) (bh : ℚ)
    (rnd : ℕ → ℚ) (k : ℕ) : Prop :=
  cfg.baseRadius * 0.2 ≤ (initCircle M cfg cv false bh rnd k).1.radius
  ∧ (initCircle M cfg cv false bh rnd k).1.radius < (cfg.baseRadius + cfg.rangeRadius) * 0.2
  ∧ cfg.burstBaseRadius * 0.2 ≤ (initCircle M cfg cv true bh rnd k).1.radius
  ∧ (initCircle M cfg cv true bh rnd k).1.radius
      < (cfg.burstBaseRadius + cfg.burstRangeRadius) * 0.2
  ∧ (∀ (b : Bool) (p : Particle), (updateCircle M cfg cv b bh rnd k p).reinit = false →
      (updateCircle M cfg cv b bh rnd k p).particle.radius
        = (if agedLife cfg b p.life < 50 then p.radius * 1.05 else p.radius))

/-- Conclusion of the stale-bounds-check claim for a particle whose
*pre-advance* position passes `checkBounds` and whose life has not expired:
it is not reinitialized this frame — its stored position advances to
`(x + vx, y + vy)` even if that lands outside the padding, so a reinit for
that crossing can happen no earlier than the next frame.  In general the
reinit decision reads only the pre-advance position. -/
def StaleBoundsConcl (M : JSMath) (cfg : Config) (cv : Canvas) (b : Bool)
    (bh : ℚ) (rnd : ℕ → ℚ) (k : ℕ) (p : Particle) : Prop :=
  (updateCircle M cfg cv b bh rnd k p).reinit = false
  ∧ (updateCircle M cfg cv b bh rnd k p).particle.x = p.x + p.vx
  ∧ (updateCircle M cfg cv b bh rnd k p).particle.y = p.y + p.vy
  ∧ (∀ q : Particle, (updateCircle M cfg cv b bh rnd k q).reinit
      = (checkBounds cv q.x q.y (grownRadius (agedLife cfg b q.life) q.radius)
         || decide (agedLife cfg b q.life > q.ttl)))

/-! ## Helper lemmas -/

/-- One frame maps the pool to a pool of the same length. -/
theorem updateCircles_length (M : JSMath) (cfg : Config) (cv : Canvas) (b : Bool)
    (bh : ℚ) (rnd : ℕ → ℚ) (ps : List Particle) (k : ℕ) :
    (updateCircles M cfg cv b bh rnd ps k).1.length = ps.length := by
  induction ps generalizing k with
  | nil => rfl
  | cons p ps ih => simp [updateCircles, ih]

/-- `initCirclesGo` builds exactly as many particles as requested. -/
theorem initCirclesGo_length (M : JSMath) (cfg : Config) (cv : Canvas)
    (rnd : ℕ → ℚ) (stagger : ℚ) (n j k : ℕ) :
    (initCirclesGo M cfg cv rnd stagger n j k).1.length = n := by
  induction n generalizing j k with
  | zero => rfl
  | succ n ih => simp [initCirclesGo, ih]

/-- Every particle leaves `initCircle` with `life = 0`. -/
theorem initCircle_life (M : JSMath) (cfg : Config) (cv : Canvas) (b : Bool)
    (bh : ℚ) (rnd : ℕ → ℚ) (k : ℕ) :
    (initCircle M cfg cv b bh rnd k).1.life = 0 := by
  unfold initCircle
  split <;> rfl

/-- The ttl written by the shared `initCircle` tail. -/
theorem initCircleAt_ttl (M : JSMath) (cfg : Config) (b : Bool) (bh : ℚ)
    (rnd : ℕ → ℚ) (x y : ℚ) (k : ℕ) :
    (initCircleAt M cfg b bh rnd x y k).1.ttl
      = cfg.baseTTL + cfg.rangeTTL * rnd (k + 3) := rfl

/-- Every particle leaves `initCircle` with a ttl in
`[baseTTL, baseTTL + rangeTTL)`, given the `Math.random` contract and a
positive `rangeTTL`. -/
theorem initCircle_ttl (M : JSMath) (cfg : Config) (cv : Canvas) (b : Bool)
    (bh : ℚ) (rnd : ℕ → ℚ) (k : ℕ)
    (hr : ∀ i, 0 ≤ rnd i ∧ rnd i < 1) (hT : 0 < cfg.rangeTTL) :
    cfg.baseTTL ≤ (initCircle M cfg cv b bh rnd k).1.ttl
    ∧ (initCircle M cfg cv b bh rnd k).1.ttl < cfg.baseTTL + cfg.rangeTTL := by
  have key : ∀ i, cfg.baseTTL ≤ cfg.baseTTL + cfg.rangeTTL * rnd i
      ∧ cfg.baseTTL + cfg.rangeTTL * rnd i < cfg.baseTTL + cfg.rangeTTL := by
    intro i
    constructor
    · exact le_add_of_nonneg_right (mul_nonneg hT.le (hr i).1)
    · nlinarith [mul_lt_mul_of_pos_left (hr i).2 hT]
  unfold initCircle
  split
  · rw [initCircleAt_ttl]; exact key _
  · rw [initCircleAt_ttl]; exact key _

/-- The radius drawn by `initCircle`, in both burst and steady-state modes. -/
theorem initCircle_radius (M : JSMath) (cfg : Config) (cv : Canvas) (b : Bool)
    (bh : ℚ) (rnd : ℕ → ℚ) (k : ℕ) :
    ∃ i, (initCircle M cfg cv b bh rnd k).1.radius
      = (if b then (cfg.burstBaseRadius + cfg.burstRangeRadius * rnd i) * 0.2
         else (cfg.baseRadius + cfg.rangeRadius * rnd i) * 0.2) := by
  unfold initCircle
  split
  · exact ⟨k + 5 + 4, rfl⟩
  · exact ⟨k + 3 + 4, rfl⟩

/-- The reinit decision of `updateCircle`, read off its definition: the
pre-advance position is tested with the grown radius, or the incremented life
exceeded the ttl. -/
theorem updateCircle_reinit (M : JSMath) (cfg : Config) (cv : Canvas) (b : Bool)
    (bh : ℚ) (rnd : ℕ → ℚ) (k : ℕ) (p : Particle) :
    (updateCircle M cfg cv b bh rnd k p).reinit
      = (checkBounds cv p.x p.y (grownRadius (agedLife cfg b p.life) p.radius)
         || decide (agedLife cfg b p.life > p.ttl)) := rfl

/-- The particle produced by `updateCircle`: the fresh `initCircle` particle
on reinit, the advanced one otherwise. -/
theorem updateCircle_particle (M : JSMath) (cfg : Config) (cv : Canvas) (b : Bool)
    (bh : ℚ) (rnd : ℕ → ℚ) (k : ℕ) (p : Particle) :
    (updateCircle M cfg cv b bh rnd k p).particle
      = (if (updateCircle M cfg cv b bh rnd k p).reinit = true
         then (initCircle M cfg cv b bh rnd k).1
         else ⟨p.x + p.vx, p.y + p.vy, p.vx, p.vy, agedLife cfg b p.life, p.ttl,
               grownRadius (agedLife cfg b p.life) p.radius, p.hue⟩) := rfl

/-- Peeling a frame off the back of a run. -/
theorem runFrames_succ_right (M : JSMath) (cfg : Config) (cv : Canvas) (b : Bool)
    (rnd : ℕ → ℚ) (n : ℕ) (s : FrameState) :
    runFrames M cfg cv b rnd (n + 1) s
      = stepFrame M cfg cv b rnd (runFrames M cfg cv b rnd n s) := by
  induction n generalizing s with
  | zero => rfl
  | succ n ih =>
    show runFrames M cfg cv b rnd (n + 1) (stepFrame M cfg cv b rnd s) = _
    rw [ih]
    rfl

/-- One frame of the expiry scenario while the particle is still alive: it
stays at the canvas center, its life grows from `n` to `n + 1 ≤ 10` and its
radius by 5%, and no reinitialization happens. -/
theorem expiry_step (n r bh : ℚ) (k c : ℕ) (hr : 0 < r) (hn : n + 1 ≤ 10) :
    stepFrame mathW cfgExpiry cvW true rndHalf ⟨[⟨50, 50, 0, 0, n, 10, r, 225⟩], bh, k, c⟩
      = ⟨[⟨50, 50, 0, 0, n + 1, 10, r * 1.05, 225⟩], bh + 0.1, k, c⟩ := by
  have hb : checkBounds cvW 50 50 (r * 1.05) = false := by
    simp only [checkBounds, cvW, decide_eq_false_iff_not]
    push_neg
    refine ⟨by nlinarith, by nlinarith, by nlinarith, by nlinarith⟩
  have hag : agedLife cfgExpiry true n = n + 1 := by
    simp [agedLife, cfgExpiry]
  have hgr : grownRadius (n + 1) r = r * 1.05 := by
    rw [grownRadius, if_pos (by linarith)]
  have hl : decide ((n + 1 : ℚ) > 10) = false := decide_eq_false (by linarith)
  simp only [stepFrame, updateCircles, updateCircle, hag, hgr, hb, hl, Bool.or_self,
    Bool.false_or, if_neg (Bool.false_ne_true)]
  simp

/-- The expiring frame of the scenario: once the particle's life has reached
the ttl of 10, the next frame pushes it to `11 > 10` and reinitializes it in
place via `initCircle`, counting one reinitialization. -/
theorem expiry_final (r bh : ℚ) (k c : ℕ) :
    stepFrame mathW cfgExpiry cvW true rndHalf ⟨[⟨50, 50, 0, 0, 10, 10, r, 225⟩], bh, k, c⟩
      = ⟨[(initCircle mathW cfgExpiry cvW true (bh + 0.1) rndHalf k).1], bh + 0.1,
         (initCircle mathW cfgExpiry cvW true (bh + 0.1) rndHalf k).2, c + 1⟩ := by
  have hag : agedLife cfgExpiry true (10 : ℚ) = 10 + 1 := by
    simp [agedLife, cfgExpiry]
  have hl : decide ((10 + 1 : ℚ) > 10) = true := decide_eq_true (by norm_num)
  simp only [stepFrame, updateCircles, updateCircle, hag, hl, Bool.or_true, if_pos rfl]
  simp

/-- Frames 0 through 10 of the expiry scenario: the pool is the single
resting particle with life `i`, and no reinitialization has happened. -/
theorem expiry_invariant : ∀ i : ℕ, i ≤ 10 → ∃ r : ℚ, 0 < r ∧
    runFrames mathW cfgExpiry cvW true rndHalf i expiryStart
      = ⟨[⟨50, 50, 0, 0, (i : ℚ), 10, r, 225⟩], 220 + (i : ℚ) * 0.1, 8, 0⟩ := by
  intro i
  induction i with
  | zero =>
    intro _
    refine ⟨16, by norm_num, ?_⟩
    show expiryStart = _
    simp only [expiryStart, initCircles, initCirclesGo, initCircle, initCircleAt,
      mathW, rndHalf, cfgExpiry, cvW]
    norm_num
  | succ i ih =>
    intro hle
    obtain ⟨r, hr, heq⟩ := ih (by omega)
    refine ⟨r * 1.05, by nlinarith, ?_⟩
    rw [runFrames_succ_right, heq,
      expiry_step (i : ℚ) r _ _ _ hr (by exact_mod_cast hle)]
    simp only [FrameState.mk.injEq, List.cons.injEq, Particle.mk.injEq]
    norm_num
    ring

/-- `jsMod x m = x` when `0 ≤ x < m`. -/
theorem jsMod_eq_self (x m : ℚ) (hm : 0 < m) (h0 : 0 ≤ x) (h1 : x < m) :
    jsMod x m = x := by
  have hq : 0 ≤ x / m := div_nonneg h0 hm.le
  have hf : ⌊x / m⌋ = 0 := by
    rw [Int.floor_eq_zero_iff]
    exact Set.mem_Ico.mpr ⟨hq, (div_lt_one hm).mpr h1⟩
  rw [jsMod, if_pos hq, hf]
  push_cast
  ring

/-- `jsMod x m = x - m` when `m ≤ x < 2m`. -/
theorem jsMod_shift (x m : ℚ) (hm : 0 < m) (h0 : m ≤ x) (h1 : x < 2 * m) :
    jsMod x m = x - m := by
  have hq : 0 ≤ x / m := div_nonneg (le_trans hm.le h0) hm.le
  have hf : ⌊x / m⌋ = 1 := by
    rw [Int.floor_eq_iff]
    constructor
    · push_cast
      exact (one_le_div hm).mpr h0
    · push_cast
      rw [div_lt_iff₀ hm]
      linarith
  rw [jsMod, if_pos hq, hf]
  push_cast
  ring

/-- On the rising half of a period, `fadeInOut` is the smoothstep of
`t / (m/2)`. -/
theorem fade_low (m t : ℚ) (hm : 0 < m) (h0 : 0 ≤ t) (h1 : t < 0.5 * m) :
    fadeInOut t m = smoothstep (t / (0.5 * m)) := by
  have hmm : (0.5 : ℚ) * m < m := by linarith
  have hrt : jsMod t m = t := jsMod_eq_self t m hm h0 (lt_trans h1 hmm)
  have hin : jsMod (t + 0.5 * m) m = t + 0.5 * m :=
    jsMod_eq_self _ m hm (by linarith) (by linarith)
  simp only [fadeInOut, hrt, hin, smoothstep]
  rw [abs_of_nonneg (by linarith : (0 : ℚ) ≤ t + 0.5 * m - 0.5 * m)]
  ring

/-- On the falling half of a period, `fadeInOut` is the smoothstep of
`(m - t) / (m/2)`. -/
theorem fade_high (m t : ℚ) (hm : 0 < m) (h0 : 0.5 * m ≤ t) (h1 : t < m) :
    fadeInOut t m = smoothstep ((m - t) / (0.5 * m)) := by
  have hrt : jsMod t m = t := jsMod_eq_self t m hm (by linarith) h1
  have hin : jsMod (t + 0.5 * m) m = t + 0.5 * m - m :=
    jsMod_shift _ m hm (by linarith) (by linarith)
  simp only [fadeInOut, hrt, hin, smoothstep]
  rw [abs_of_nonpos (by linarith : t + 0.5 * m - m - 0.5 * m ≤ 0)]
  ring

/-- `fadeInOut` vanishes at age 0. -/
theorem fade_zero (m : ℚ) (hm : 0 < m) : fadeInOut 0 m = 0 := by
  rw [fade_low m 0 hm le_rfl (by linarith)]
  simp [smoothstep]

/-- `fadeInOut` vanishes at age `m` (the number the source computes there:
`m % m = 0`, giving phase 0). -/
theorem fade_ttl (m : ℚ) (hm : 0 < m) : fadeInOut m m = 0 := by
  have hrt : jsMod m m = m - m := jsMod_shift m m hm le_rfl (by linarith)
  simp only [fadeInOut, hrt]
  rw [show m - m + 0.5 * m = 0.5 * m from by ring,
    jsMod_eq_self (0.5 * m) m hm (by linarith) (by linarith)]
  simp

/-- `fadeInOut` attains 1 at the midpoint of a particle's life. -/
theorem fade_mid (m : ℚ) (hm : 0 < m) : fadeInOut (m / 2) m = 1 := by
  have hne : m ≠ 0 := ne_of_gt hm
  rw [fade_high m (m / 2) hm (by linarith) (by linarith)]
  rw [show (m - m / 2) / (0.5 * m) = 1 from by field_simp; ring]
  simp only [smoothstep]
  norm_num

/-- The smoothstep polynomial stays below 1 left of 1. -/
theorem smoothstep_lt_one (f : ℚ) (h0 : 0 ≤ f) (h1 : f < 1) : smoothstep f < 1 := by
  have key : 1 - smoothstep f = (1 - f) ^ 2 * (1 + 2 * f) := by
    simp only [smoothstep]
    ring
  have hpos : 0 < (1 - f) ^ 2 * (1 + 2 * f) :=
    mul_pos (pow_pos (by linarith) 2) (by linarith)
  linarith

/-- Away from the midpoint, `fadeInOut` is strictly below its midpoint
value. -/
theorem fade_lt_mid (m t : ℚ) (hm : 0 < m) (h0 : 0 < t) (h1 : t < m)
    (hne : t ≠ m / 2) : fadeInOut t m < fadeInOut (m / 2) m := by
  rw [fade_mid m hm]
  rcases lt_or_le t (0.5 * m) with hlow | hhigh
  · rw [fade_low m t hm h0.le hlow]
    apply smoothstep_lt_one
    · exact div_nonneg h0.le (by linarith)
    · rw [div_lt_one (by linarith)]
      linarith
  · have hstrict : 0.5 * m < t := lt_of_le_of_ne hhigh (fun h => hne (by linarith))
    rw [fade_high m t hm hhigh h1]
    apply smoothstep_lt_one
    · exact div_nonneg (by linarith) (by linarith)
    · rw [div_lt_one (by linarith)]
      linarith

/-- On `[0, m]`, `fadeInOut` is the spec's `3u² − 2u³` of the normalized
triangular phase. -/
theorem fade_spec_eq (m t : ℚ) (hm : 0 < m) (h0 : 0 ≤ t) (h1 : t ≤ m) :
    fadeInOut t m = 3 * specTriPhase t m ^ 2 - 2 * specTriPhase t m ^ 3 := by
  have hne : m ≠ 0 := ne_of_gt hm
  rcases lt_or_le t (0.5 * m) with hlow | hhigh
  · rw [fade_low m t hm h0 hlow]
    have hle : 2 * t / m ≤ 1 := by
      rw [div_le_one hm]
      linarith
    unfold specTriPhase
    rw [abs_of_nonpos (by linarith)]
    simp only [smoothstep]
    field_simp
    ring
  · rcases eq_or_lt_of_le h1 with heq | hlt
    · subst heq
      rw [fade_ttl t hm]
      unfold specTriPhase
      rw [show 2 * t / t = 2 from by field_simp]
      norm_num
    · rw [fade_high m t hm hhigh hlt]
      have hge : (1 : ℚ) ≤ 2 * t / m := by
        rw [le_div_iff₀ hm]
        linarith
      unfold specTriPhase
      rw [abs_of_nonneg (by linarith)]
      simp only [smoothstep]
      field_simp
      ring

/-- `drawConnections` distances are symmetric in the two endpoints. -/
theorem distanceJS_symm (M : JSMath) (x1 y1 x2 y2 : ℚ) :
    distanceJS M x1 y1 x2 y2 = distanceJS M x2 y2 x1 y1 := by
  unfold distanceJS
  congr 1
  ring

/-- With `connectionDistance = 0`, no single pair is ever close enough. -/
theorem connectionDrawn_zero (M : JSMath) (hM : ∀ q, 0 ≤ q → 0 ≤ M.sqrt q)
    (x1 y1 x2 y2 : ℚ) : connectionDrawn M 0 x1 y1 x2 y2 = false := by
  have hd : 0 ≤ distanceJS M x1 y1 x2 y2 :=
    hM _ (add_nonneg (mul_self_nonneg _) (mul_self_nonneg _))
  simp only [connectionDrawn, decide_eq_false_iff_not, not_lt]
  exact hd

/-- With `connectionDistance = 0`, the whole pass emits nothing. -/
theorem drawConnections_zero (M : JSMath) (hM : ∀ q, 0 ≤ q → 0 ≤ M.sqrt q) :
    ∀ ps, drawConnections M 0 ps = [] := by
  intro ps
  induction ps with
  | nil => rfl
  | cons p ps ih =>
    have hf : ps.filter (fun q => connectionDrawn M 0 p.1 p.2 q.1 q.2) = [] := by
      rw [List.filter_eq_nil_iff]
      intro a _
      simp [connectionDrawn_zero M hM]
    simp [drawConnections, hf, ih]

/-- `qToString` prints the rational 30 as the digit string 30. -/
theorem qToString_thirty : qToString (30 : ℚ) = ("30") := by
  have h0 : ¬((30 : ℚ) < 0) := by norm_num
  have h2 : |(30 : ℚ)| = 30 := by norm_num
  have h3 : (⌊(30 : ℚ)⌋).toNat = 30 := by
    rw [show ⌊(30 : ℚ)⌋ = 30 from by norm_num]
    rfl
  simp only [qToString, h2, h3, if_neg h0]
  norm_num
  rfl

/-! ## Claims -/

/-- C1: Pool size invariant — the backing array has `circleCount * 8` slots,
`initCircles` builds a pool of exactly `circleCount` particles, a frame maps
the pool to one of the same length, and a dying particle is replaced in place
by `initCircle`'s output (never removed), so the pool never grows or
shrinks. -/
theorem pool_size_invariant :
    (∀ (M : JSMath) (cfg : Config) (cv : Canvas) (b : Bool) (bh : ℚ) (rnd : ℕ → ℚ)
        (ps : List Particle) (k : ℕ),
      (updateCircles M cfg cv b bh rnd ps k).1.length = ps.length)
    ∧ (∀ (M : JSMath) (cfg : Config) (cv : Canvas) (rnd : ℕ → ℚ) (c k : ℕ),
        (initCircles M cfg cv rnd c k).1.length = c)
    ∧ (∀ (M : JSMath) (cfg : Config) (cv : Canvas) (b : Bool) (rnd : ℕ → ℚ)
        (s : FrameState), (stepFrame M cfg cv b rnd s).pool.length = s.pool.length)
    ∧ (∀ c : ℤ, circlePropsLength c = c * 8)
    ∧ (∀ (M : JSMath) (cfg : Config) (cv : Canvas) (b : Bool) (bh : ℚ) (rnd : ℕ → ℚ)
        (k : ℕ) (p : Particle),
        (updateCircle M cfg cv b bh rnd k p).particle
          = (if (updateCircle M cfg cv b bh rnd k p).reinit = true
             then (initCircle M cfg cv b bh rnd k).1
             else ⟨p.x + p.vx, p.y + p.vy, p.vx, p.vy, agedLife cfg b p.life, p.ttl,
                   grownRadius (agedLife cfg b p.life) p.radius, p.hue⟩)) := by
  refine ⟨updateCircles_length, ?_, ?_, fun c => rfl, updateCircle_particle⟩
  · intro M cfg cv rnd c k
    exact initCirclesGo_length M cfg cv rnd _ c 0 k
  · intro M cfg cv b rnd s
    simp [stepFrame, updateCircles_length]

/-- C8: Deterministic expiry scenario — with `circleCount = 1`,
`baseTTL = 10`, `rangeTTL = 0`, `baseSpeed = 0`, `rangeSpeed = 0` the single
particle (whose staggered initial life is `0 * (baseTTL / 1) = 0` and which
never moves), over the concrete run with every random draw `1/2`: after 10
frames no reinitialization has happened and the particle's life is exactly
10; on frame 11 the life reaches `11 > 10` and exactly one reinitialization
happens, resetting the life to 0. -/
theorem expiry_scenario :
    (runFrames mathW cfgExpiry cvW true rndHalf 10 expiryStart).reinits = 0
    ∧ (runFrames mathW cfgExpiry cvW true rndHalf 11 expiryStart).reinits = 1
    ∧ (runFrames mathW cfgExpiry cvW true rndHalf 10 expiryStart).pool.map Particle.life
        = [10]
    ∧ (runFrames mathW cfgExpiry cvW true rndHalf 11 expiryStart).pool.map Particle.life
        = [0] := by
  obtain ⟨r, hr, heq⟩ := expiry_invariant 10 le_rfl
  norm_num at heq
  have h11 : runFrames mathW cfgExpiry cvW true rndHalf 11 expiryStart
      = ⟨[(initCircle mathW cfgExpiry cvW true (221 + 0.1) rndHalf 8).1], 221 + 0.1,
         (initCircle mathW cfgExpiry cvW true (221 + 0.1) rndHalf 8).2, 0 + 1⟩ := by
    rw [runFrames_succ_right, heq, expiry_final]
  refine ⟨by rw [heq], by rw [h11], by rw [heq]; rfl, ?_⟩
  rw [h11]
  simp [initCircle_life]

/-- C2 (counterexample): `baseRadius` and `baseSpeed` are *not* among the
props coerced with `Number(...)` at construction, and the difference is
observable — supplying `baseRadius` as the string `"40"` (with numeric
`rangeRadius = 60` and random draw `1/2`) makes line 84 concatenate
`"40" + 30` to `"4030"`, producing a radius of 806 instead of the 14 the same
numeric configuration produces. -/
theorem numeric_coercion_counterexample :
    ("baseRadius" ∉ coercedAtConstruction ∧ "baseSpeed" ∉ coercedAtConstruction)
    ∧ radiusExprJS (JSVal.str ("40")) (JSVal.num 60) (1/2) = JSVal.num 806
    ∧ radiusExprJS (JSVal.num 40) (JSVal.num 60) (1/2) = JSVal.num 14
    ∧ (806 : ℚ) ≠ 14 := by
  refine ⟨⟨by decide, by decide⟩, ?_, ?_, by norm_num⟩
  · rw [show radiusExprJS (JSVal.str ("40")) (JSVal.num 60) (1/2)
        = jsMul (JSVal.str ("40" ++ qToString (60 * (1/2)))) (JSVal.num 0.2) from rfl,
      show (60 * (1/2) : ℚ) = 30 from by norm_num, qToString_thirty]
    rw [show jsMul (JSVal.str ("40" ++ "30")) (JSVal.num 0.2)
        = JSVal.num (1 * ((4030 : ℕ) : ℚ) * 0.2) from rfl]
    norm_num
  · rw [show radiusExprJS (JSVal.num 40) (JSVal.num 60) (1/2)
        = JSVal.num ((40 + 60 * (1/2)) * 0.2) from rfl]
    norm_num

/-- C2 (amended): only `circleCount`, `blurAmount`, `initialDelay`, `baseTTL`,
`rangeTTL` and the four burst options are coerced with `Number(...)` at
construction.  Of the options the claim lists, those consumed exclusively by
`*`, `/` or `<` (`rangeSpeed`, `rangeRadius`, `parallaxStrength`,
`centerBias`, `connectionDistance`) still behave exactly as the corresponding
number when supplied as a parseable numeric string, via ECMAScript implicit
coercion; but `baseSpeed` and `baseRadius` are consumed by `+`, which
concatenates when handed a string. -/
theorem numeric_coercion_amended (s : String) (q r : ℚ) (h : strToNumQ s = some q) :
    jsMul (JSVal.str s) (JSVal.num r) = JSVal.num (q * r)
    ∧ jsLt (JSVal.str s) (JSVal.num r) = decide (q < r)
    ∧ jsAdd (JSVal.str s) (JSVal.num r) = JSVal.str (s ++ qToString r)
    ∧ "baseTTL" ∈ coercedAtConstruction
    ∧ "circleCount" ∈ coercedAtConstruction
    ∧ "baseSpeed" ∉ coercedAtConstruction
    ∧ "baseRadius" ∉ coercedAtConstruction
    ∧ "rangeSpeed" ∉ coercedAtConstruction
    ∧ "parallaxStrength" ∉ coercedAtConstruction
    ∧ "centerBias" ∉ coercedAtConstruction
    ∧ "connectionDistance" ∉ coercedAtConstruction := by
  refine ⟨?_, ?_, rfl, by decide, by decide, by decide, by decide, by decide,
    by decide, by decide, by decide⟩
  · simp [jsMul, jsToNum, h]
  · simp [jsLt, jsToNum, h]

/-- C2 (witness for the amended theorem), at `s = "40"`, `q = 40`,
`r = 1/2`. -/
theorem numeric_coercion_amended_witness :
    strToNumQ ("40") = some (40 : ℚ)
    ∧ (jsMul (JSVal.str ("40")) (JSVal.num (1/2)) = JSVal.num (40 * (1/2))
       ∧ jsLt (JSVal.str ("40")) (JSVal.num (1/2)) = decide ((40 : ℚ) < 1/2)
       ∧ jsAdd (JSVal.str ("40")) (JSVal.num (1/2)) = JSVal.str ("40" ++ qToString (1/2))
       ∧ "baseTTL" ∈ coercedAtConstruction
       ∧ "circleCount" ∈ coercedAtConstruction
       ∧ "baseSpeed" ∉ coercedAtConstruction
       ∧ "baseRadius" ∉ coercedAtConstruction
       ∧ "rangeSpeed" ∉ coercedAtConstruction
       ∧ "parallaxStrength" ∉ coercedAtConstruction
       ∧ "centerBias" ∉ coercedAtConstruction
       ∧ "connectionDistance" ∉ coercedAtConstruction) :=
  ⟨by rw [show strToNumQ ("40") = some ((1 : ℚ) * ((40 : ℕ) : ℚ)) from rfl]; norm_num,
   numeric_coercion_amended ("40") 40 (1/2)
     (by rw [show strToNumQ ("40") = some ((1 : ℚ) * ((40 : ℕ) : ℚ)) from rfl]; norm_num)⟩

/-- C3 (counterexample): nothing clamps a non-positive `circleCount` — with
`circleCount = 0` the backing array gets `0 * 8 = 0` slots and `initCircles`
builds an empty pool, so the component does not maintain the claimed
non-empty (at-least-one-particle) pool. -/
theorem clamping_counterexample :
    circlePropsLength 0 = 0
    ∧ (initCircles mathW cfgExpiry cvW rndHalf 0 0).1.length = 0
    ∧ ¬ 1 ≤ (initCircles mathW cfgExpiry cvW rndHalf 0 0).1.length := by
  decide

/-- C3 (amended): the animator performs no clamping of `circleCount` (or of
the canvas dimensions, which `resize` copies verbatim from the window): the
backing array length is exactly `circleCount * 8` and the pool built for
`circleCount = 0` is empty, for every configuration, canvas and random
stream — rather than being floored at one particle and a 1×1 surface. -/
theorem clamping_amended :
    (∀ c : ℤ, circlePropsLength c = c * 8)
    ∧ (∀ (M : JSMath) (cfg : Config) (cv : Canvas) (rnd : ℕ → ℚ) (k : ℕ),
        (initCircles M cfg cv rnd 0 k).1.length = 0) := by
  exact ⟨fun c => rfl, fun M cfg cv rnd k => rfl⟩

/-- C4: The fade law — `fadeInOut` is a pure function of `(age, ttl)` (it is
a plain function, so determinism is definitional); for every ttl `m > 0` it
vanishes at ages 0 and `m`, has its unique interior maximum (value 1) at the
midpoint `m/2`, and on `[0, m]` equals the smoothstep form `3u² − 2u³` of the
normalized triangular phase `u`. -/
theorem fade_law (m : ℚ) (hm : 0 < m) : FadeLawConcl m :=
  ⟨fade_zero m hm, fade_ttl m hm, fade_mid m hm,
   fun t h0 h1 hne => fade_lt_mid m t hm h0 h1 hne,
   fun t h0 h1 => fade_spec_eq m t hm h0 h1⟩

/-- C4 (witness), at the default ttl `m = 700`. -/
theorem fade_law_witness : (0 : ℚ) < 700 ∧ FadeLawConcl 700 :=
  ⟨by norm_num, fade_law 700 (by norm_num)⟩

/-- C5: Connection drawing — a pair is connected iff its Euclidean distance
is strictly below `connectionDistance`; the decision and the opacity
`(1 − distance/connectionDistance) · 0.15` are symmetric in the two
particles; and with `connectionDistance = 0` an entire `drawConnections`
pass emits no segment, for every particle count and positions.  The only
fact assumed about the opaque `Math.sqrt` is that it is nonnegative on
nonnegative inputs. -/
theorem connection_symmetry (M : JSMath) (hM : ∀ q : ℚ, 0 ≤ q → 0 ≤ M.sqrt q) :
    (∀ cd x1 y1 x2 y2, connectionDrawn M cd x1 y1 x2 y2 = true
        ↔ distanceJS M x1 y1 x2 y2 < cd)
    ∧ (∀ cd x1 y1 x2 y2, connectionDrawn M cd x1 y1 x2 y2
        = connectionDrawn M cd x2 y2 x1 y1)
    ∧ (∀ cd x1 y1 x2 y2, connectionOpacity M cd x1 y1 x2 y2
        = connectionOpacity M cd x2 y2 x1 y1)
    ∧ (∀ ps, drawConnections M 0 ps = []) := by
  refine ⟨?_, ?_, ?_, drawConnections_zero M hM⟩
  · intro cd x1 y1 x2 y2
    simp [connectionDrawn]
  · intro cd x1 y1 x2 y2
    simp only [connectionDrawn, distanceJS_symm M x1 y1 x2 y2]
  · intro cd x1 y1 x2 y2
    simp only [connectionOpacity, distanceJS_symm M x1 y1 x2 y2]

/-- C5 (witness), at the concrete math library whose `sqrt` is the
identity. -/
theorem connection_symmetry_witness :
    (∀ q : ℚ, 0 ≤ q → 0 ≤ mathW.sqrt q)
    ∧ ((∀ cd x1 y1 x2 y2, connectionDrawn mathW cd x1 y1 x2 y2 = true
          ↔ distanceJS mathW x1 y1 x2 y2 < cd)
       ∧ (∀ cd x1 y1 x2 y2, connectionDrawn mathW cd x1 y1 x2 y2
          = connectionDrawn mathW cd x2 y2 x1 y1)
       ∧ (∀ cd x1 y1 x2 y2, connectionOpacity mathW cd x1 y1 x2 y2
          = connectionOpacity mathW cd x2 y2 x1 y1)
       ∧ (∀ ps, drawConnections mathW 0 ps = [])) :=
  ⟨fun _ h => h, connection_symmetry mathW (fun _ h => h)⟩

/-- C6: Bounds tolerance — `checkBounds` flags a position only when it
exceeds the visible rectangle by strictly more than `2·radius` on some side;
a position within the tolerance, including exactly at distance `2·radius`,
is never flagged, and a particle in that situation is reinitialized this
frame only by ttl expiry, never for bounds. -/
theorem bounds_tolerance (cv : Canvas) (x y radius : ℚ)
    (h1 : -(radius * 2) ≤ x) (h2 : x ≤ cv.width + radius * 2)
    (h3 : -(radius * 2) ≤ y) (h4 : y ≤ cv.height + radius * 2) :
    BoundsToleranceConcl cv x y radius := by
  have hfalse : checkBounds cv x y radius = false := by
    simp only [checkBounds, decide_eq_false_iff_not]
    push_neg
    exact ⟨h1, h2, h3, h4⟩
  unfold BoundsToleranceConcl
  refine ⟨hfalse, ?_, ?_⟩
  · intro xq yq r
    simp [checkBounds]
  · intro M cfg b bh rnd k p hx hy hr
    rw [updateCircle_reinit, hx, hy, hr, hfalse]
    simp

/-- C6 (witness), at a particle sitting exactly at distance `2·radius` left
of the canvas (`x = -2`, `radius = 1`). -/
theorem bounds_tolerance_witness :
    (-(1 * 2 : ℚ) ≤ -2 ∧ (-2 : ℚ) ≤ cvW.width + 1 * 2
     ∧ -(1 * 2 : ℚ) ≤ 0 ∧ (0 : ℚ) ≤ cvW.height + 1 * 2)
    ∧ BoundsToleranceConcl cvW (-2) 0 1 :=
  ⟨⟨by norm_num, by norm_num [cvW], by norm_num, by norm_num [cvW]⟩,
   bounds_tolerance cvW (-2) 0 1 (by norm_num) (by norm_num [cvW]) (by norm_num)
     (by norm_num [cvW])⟩

/-- C7: Bounded lifetime — while not reinitialized, a particle's life
strictly increases every frame (by 1, or by the positive
`burstSpeedMultiplier` during burst); reinitialization resets the life to 0
and draws a fresh ttl from `[baseTTL, baseTTL + rangeTTL)` (under the
`Math.random ∈ [0, 1)` contract, for a positive `rangeTTL`). -/
theorem bounded_lifetime (M : JSMath) (cfg : Config) (cv : Canvas) (b : Bool)
    (bh : ℚ) (rnd : ℕ → ℚ) (k : ℕ) (p : Particle)
    (hr : ∀ i, 0 ≤ rnd i ∧ rnd i < 1)
    (hb : b = true → 0 < cfg.burstSpeedMultiplier)
    (hT : 0 < cfg.rangeTTL) :
    LifetimeConcl M cfg cv b bh rnd k p := by
  have hlife : p.life < agedLife cfg b p.life := by
    cases b with
    | false =>
      have h : agedLife cfg false p.life = p.life + 1 := by simp [agedLife]
      rw [h]
      linarith
    | true =>
      have h : agedLife cfg true p.life = p.life + cfg.burstSpeedMultiplier := by
        simp [agedLife]
      rw [h]
      have := hb rfl
      linarith
  unfold LifetimeConcl
  refine ⟨?_, ?_, initCircle_life M cfg cv b bh rnd k,
    (initCircle_ttl M cfg cv b bh rnd k hr hT).1,
    (initCircle_ttl M cfg cv b bh rnd k hr hT).2⟩
  · intro hre
    rw [updateCircle_particle, hre, if_neg Bool.false_ne_true]
    exact hlife
  · intro hre
    rw [updateCircle_particle, hre, if_pos rfl]
    exact ⟨initCircle_life M cfg cv b bh rnd k,
      (initCircle_ttl M cfg cv b bh rnd k hr hT).1,
      (initCircle_ttl M cfg cv b bh rnd k hr hT).2⟩

/-- C7 (witness), at the resting particle and a configuration with
`rangeTTL = 1`, outside burst mode. -/
theorem bounded_lifetime_witness :
    (∀ i, 0 ≤ rndHalf i ∧ rndHalf i < 1)
    ∧ ((false : Bool) = true → 0 < cfgLife.burstSpeedMultiplier)
    ∧ (0 : ℚ) < cfgLife.rangeTTL
    ∧ LifetimeConcl mathW cfgLife cvW false 220 rndHalf 0 pRest :=
  ⟨fun _ => ⟨by norm_num [rndHalf], by norm_num [rndHalf]⟩,
   fun h => absurd h Bool.false_ne_true,
   by norm_num [cfgLife],
   bounded_lifetime mathW cfgLife cvW false 220 rndHalf 0 pRest
     (fun _ => ⟨by norm_num [rndHalf], by norm_num [rndHalf]⟩)
     (fun h => absurd h Bool.false_ne_true)
     (by norm_num [cfgLife])⟩

/-- C9 (counterexample): during the initial burst phase, `initCircle` draws
the radius from the burst interval, not from
`[baseRadius, baseRadius + rangeRadius) · 0.2` — with `baseRadius = 40`,
`rangeRadius = 1`, `burstBaseRadius = 50`, `burstRangeRadius = 0` and random
draw `1/2`, the drawn radius is 10, outside the claimed `[8, 8.2)`. -/
theorem radius_law_counterexample :
    (initCircle mathW cfgBurstCE cvW true 220 rndHalf 0).1.radius = 10
    ∧ ¬(cfgBurstCE.baseRadius * 0.2
          ≤ (initCircle mathW cfgBurstCE cvW true 220 rndHalf 0).1.radius
        ∧ (initCircle mathW cfgBurstCE cvW true 220 rndHalf 0).1.radius
          < (cfgBurstCE.baseRadius + cfgBurstCE.rangeRadius) * 0.2) := by
  have hrad : (initCircle mathW cfgBurstCE cvW true 220 rndHalf 0).1.radius = 10 := by
    simp only [initCircle, initCircleAt, rndHalf, cfgBurstCE, cvW]
    norm_num
  refine ⟨hrad, ?_⟩
  rw [hrad]
  norm_num [cfgBurstCE]

/-- C9 (amended): `initCircle`'s radius comes from
`[baseRadius, baseRadius + rangeRadius) · 0.2` when burst mode is off and
from `[burstBaseRadius, burstBaseRadius + burstRangeRadius) · 0.2` during
the initial burst phase; a surviving particle's radius is multiplied by 1.05
exactly on the frames whose incremented life is below 50 and kept otherwise. -/
theorem radius_law_amended (M : JSMath) (cfg : Config) (cv : Canvas) (bh : ℚ)
    (rnd : ℕ → ℚ) (k : ℕ)
    (hr : ∀ i, 0 ≤ rnd i ∧ rnd i < 1)
    (h1 : 0 < cfg.rangeRadius) (h2 : 0 < cfg.burstRangeRadius) :
    RadiusLawConcl M cfg cv bh rnd k := by
  have key : ∀ (base range : ℚ), 0 < range → ∀ i,
      base * 0.2 ≤ (base + range * rnd i) * 0.2
      ∧ (base + range * rnd i) * 0.2 < (base + range) * 0.2 := by
    intro base range hrange i
    constructor
    · nlinarith [mul_nonneg hrange.le (hr i).1]
    · nlinarith [mul_lt_mul_of_pos_left (hr i).2 hrange]
  obtain ⟨i1, e1⟩ := initCircle_radius M cfg cv false bh rnd k
  obtain ⟨i2, e2⟩ := initCircle_radius M cfg cv true bh rnd k
  rw [if_neg Bool.false_ne_true] at e1
  rw [if_pos rfl] at e2
  unfold RadiusLawConcl
  refine ⟨?_, ?_, ?_, ?_, fun b p hre => ?_⟩
  · rw [e1]
    exact (key cfg.baseRadius cfg.rangeRadius h1 i1).1
  · rw [e1]
    exact (key cfg.baseRadius cfg.rangeRadius h1 i1).2
  · rw [e2]
    exact (key cfg.burstBaseRadius cfg.burstRangeRadius h2 i2).1
  · rw [e2]
    exact (key cfg.burstBaseRadius cfg.burstRangeRadius h2 i2).2
  · rw [updateCircle_particle, hre, if_neg Bool.false_ne_true]
    rfl

/-- C9 (witness for the amended theorem), at a configuration with positive
`rangeRadius` and `burstRangeRadius`. -/
theorem radius_law_amended_witness :
    (∀ i, 0 ≤ rndHalf i ∧ rndHalf i < 1)
    ∧ (0 : ℚ) < cfgLife.rangeRadius
    ∧ (0 : ℚ) < cfgLife.burstRangeRadius
    ∧ RadiusLawConcl mathW cfgLife cvW 220 rndHalf 0 :=
  ⟨fun _ => ⟨by norm_num [rndHalf], by norm_num [rndHalf]⟩,
   by norm_num [cfgLife], by norm_num [cfgLife],
   radius_law_amended mathW cfgLife cvW 220 rndHalf 0
     (fun _ => ⟨by norm_num [rndHalf], by norm_num [rndHalf]⟩)
     (by norm_num [cfgLife]) (by norm_num [cfgLife])⟩

/-- C10: Stale bounds check — `updateCircle` tests the position from before
this frame's velocity update (the stored position has already advanced),
so a particle whose pre-advance position is inside the padded bounds and
whose life has not expired is not reinitialized this frame even if its new
position lands beyond the padding; the reinit for that crossing can happen
no earlier than the next frame. -/
theorem stale_bounds (M : JSMath) (cfg : Config) (cv : Canvas) (b : Bool)
    (bh : ℚ) (rnd : ℕ → ℚ) (k : ℕ) (p : Particle)
    (hin : checkBounds cv p.x p.y
        (grownRadius (agedLife cfg b p.life) p.radius) = false)
    (hl : agedLife cfg b p.life ≤ p.ttl) :
    StaleBoundsConcl M cfg cv b bh rnd k p := by
  have hre : (updateCircle M cfg cv b bh rnd k p).reinit = false := by
    rw [updateCircle_reinit, hin]
    simp only [Bool.false_or, decide_eq_false_iff_not, not_lt]
    exact hl
  unfold StaleBoundsConcl
  refine ⟨hre, ?_, ?_, fun q => updateCircle_reinit M cfg cv b bh rnd k q⟩
  · rw [updateCircle_particle, hre, if_neg Bool.false_ne_true]
  · rw [updateCircle_particle, hre, if_neg Bool.false_ne_true]

/-- C10 (witness), at a particle whose pre-advance position `x = 90` is well
inside the 100×100 canvas but whose velocity `vx = 1000` carries it far
beyond the padding within this frame. -/
theorem stale_bounds_witness :
    checkBounds cvW pExit.x pExit.y
        (grownRadius (agedLife cfgLife false pExit.life) pExit.radius) = false
    ∧ agedLife cfgLife false pExit.life ≤ pExit.ttl
    ∧ StaleBoundsConcl mathW cfgLife cvW false 220 rndHalf 0 pExit :=
  ⟨by norm_num [checkBounds, agedLife, grownRadius, cfgLife, cvW, pExit],
   by norm_num [agedLife, cfgLife, pExit],
   stale_bounds mathW cfgLife cvW false 220 rndHalf 0 pExit
     (by norm_num [checkBounds, agedLife, grownRadius, cfgLife, cvW, pExit])
     (by norm_num [agedLife, cfgLife, pExit])⟩

end Background
